import Mathlib

/-!
Shallow embedding of the length-feedback core of `h5p-structure-strip`.

Two evaluator variants exist in the repository:
* `src/src/scripts/h5p-structure-strip-content.js` — no min/max clamping,
  too-long gaps use `Math.floor`, too-short gaps use `Math.ceil`;
* `src/unnamed/part_000` — clamps the reference length against
  `textLengthMin/tex tLengthMax * referenceShare` (zeroing slack when a
  clamp fires) and rounds both gaps with `Math.round`.

JS numbers are modelled as exact rationals (`ℚ`), text as `String`
(lengths are character counts), weights as `ℕ`.  JS `reduce` over the
segment array returns an object reference; object identity is modelled
by the segment's position (index) in the list.
-/

/-- One labeled text-entry segment (constructor parameters of
`StructureStripSegment` that the evaluator reads: `getTitle`,
`getWeight`, `getText`). -/
structure Segment where
  title : String
  weight : ℕ
  text : String
deriving Repr, DecidableEq

/-- `Util.greatestCommonDivisor(a, b)`: `(!b) ? a : gcd(b, a % b)`. -/
def greatestCommonDivisor (a b : ℕ) : ℕ :=
  if h : b = 0 then a else greatestCommonDivisor b (a % b)
termination_by b
decreasing_by exact Nat.mod_lt _ (Nat.pos_of_ne_zero h)

/-- One step of `Util.greatestCommonDivisorArray`'s `reduce` callback:
`!previous ? 1 : gcd(previous, current)` (`0` is the only falsy `ℕ`). -/
def gcdStep (previous current : ℕ) : ℕ :=
  if previous = 0 then 1 else greatestCommonDivisor previous current

/-- `Util.greatestCommonDivisorArray(numbers)`: `numbers.reduce(...)`.
JS `reduce` without an initial value throws on an empty array (`none`)
and returns the sole element of a singleton without calling the
callback. -/
def greatestCommonDivisorArray : List ℕ → Option ℕ
  | [] => none
  | n :: ns => some (ns.foldl gcdStep n)

/-- The indexed reduce choosing the most important segment:
`(previous, current) => current.weight > previous.weight ? current :
previous`, carried as `(index, weight)` pairs (`best` is the pair kept
so far, `i` the index of the head of `ws`). -/
def refPairAux : ℕ × ℕ → ℕ → List ℕ → ℕ × ℕ
  | best, _, [] => best
  | best, i, w :: ws =>
      refPairAux (if w > best.2 then (i, w) else best) (i + 1) ws

/-- Index of the reference segment (`this.mostImportantSegment`) in a
weight list: first index of maximal weight, as picked by the `reduce`
in the constructor. -/
def mostImportantIndexW : List ℕ → ℕ
  | [] => 0
  | w :: ws => (refPairAux (0, w) 1 ws).1

/-- State of `StructureStripContent` after construction: a non-empty
segment list (head plus rest) and the `slack` parameter. -/
structure ContentState where
  seg0 : Segment
  rest : List Segment
  slack : ℚ
deriving Repr, DecidableEq

/-- `this.segments`. -/
def ContentState.segments (c : ContentState) : List Segment :=
  c.seg0 :: c.rest

/-- The weights of all segments, in order. -/
def ContentState.weights (c : ContentState) : List ℕ :=
  c.segments.map (fun s => s.weight)

/-- Index of `this.mostImportantSegment` in `this.segments`. -/
def ContentState.refIdx (c : ContentState) : ℕ :=
  mostImportantIndexW c.weights

/-- `this.mostImportantSegment` (the segment the reference index points
at; weights never change after construction, so the index is stable). -/
def ContentState.refSeg (c : ContentState) : Segment :=
  c.segments.getD c.refIdx c.seg0

/-- `this.greatestCommonDivisor`, computed over the non-empty weight
list exactly as the `reduce` does. -/
def ContentState.gcdW (c : ContentState) : ℕ :=
  (c.rest.map (fun s => s.weight)).foldl gcdStep c.seg0.weight

/-- `referenceLength` of the non-clamping evaluator:
`Math.max(refSeg.text.length, refSeg.weight / gcd)`. -/
def ContentState.referenceLength (c : ContentState) : ℚ :=
  max ((c.refSeg.text.length : ℚ)) ((c.refSeg.weight : ℚ) / (c.gcdW : ℚ))

/-- `normalizedReferenceLength = referenceLength / refSeg.weight`. -/
def ContentState.normalizedReferenceLength (c : ContentState) : ℚ :=
  c.referenceLength / (c.refSeg.weight : ℚ)

/-- `normalizedLengthMax = normalizedReferenceLength * (1 + slack/100)`. -/
def ContentState.normalizedLengthMax (c : ContentState) : ℚ :=
  c.normalizedReferenceLength * (1 + c.slack / 100)

/-- `normalizedLengthMin = normalizedReferenceLength * (1 - slack/100)`. -/
def ContentState.normalizedLengthMin (c : ContentState) : ℚ :=
  c.normalizedReferenceLength * (1 - c.slack / 100)

/-- A segment's `normalizedLength = text.length / weight`. -/
def Segment.normalizedLength (s : Segment) : ℚ :=
  (s.text.length : ℚ) / (s.weight : ℚ)

/-- The text templates handed to `buildFeedbackTexts`; `alright` is
`null`/absent (`none`) on the `checkAnswer` path. -/
structure Templates where
  alright : Option String
  tooLong : String
  tooShort : String
deriving Repr, DecidableEq

/-- JS `String.prototype.replace` with a global literal pattern:
scan left to right, replace every non-overlapping occurrence, and do
not rescan the replacement.  Structural recursion on a fuel that the
initial text length always covers (each step consumes at least one
character of the text). -/
def replaceAllList (pat rep : List Char) : ℕ → List Char → List Char
  | _, [] => []
  | 0, s => s
  | fuel + 1, c :: cs =>
    if pat ≠ [] ∧ (c :: cs).take pat.length = pat then
      rep ++ replaceAllList pat rep fuel ((c :: cs).drop pat.length)
    else c :: replaceAllList pat rep fuel cs

/-- `text.replace(/pat/g, rep)` for a literal pattern `pat`. -/
def replaceAll (s pat rep : String) : String :=
  String.mk (replaceAllList pat.data rep.data s.data.length s.data)

/-- `template.replace(/@title/g, title).replace(/@chars/g, gap)` —
each `replace` with a `/g` regex substitutes every occurrence; the
numeric gap is coerced to its decimal string. -/
def substitute (template title : String) (gap : ℤ) : String :=
  replaceAll (replaceAll template "@title" title) "@chars" (toString gap)

/-- Too-long gap of the non-clamping evaluator:
`Math.floor((normalizedLength - normalizedLengthMax) * weight)`. -/
def tooLongGap (bandMax : ℚ) (seg : Segment) : ℤ :=
  ⌊(seg.normalizedLength - bandMax) * (seg.weight : ℚ)⌋

/-- Too-short gap of the non-clamping evaluator:
`Math.ceil((normalizedLengthMin - normalizedLength) * weight)`. -/
def tooShortGap (bandMin : ℚ) (seg : Segment) : ℤ :=
  ⌈(bandMin - seg.normalizedLength) * (seg.weight : ℚ)⌉

/-- Per-segment body of `buildFeedbackTexts`
(`src/src/scripts/h5p-structure-strip-content.js`, lines 145–177):
classify against the band, push `null` for a zero too-long gap,
otherwise the substituted template. -/
def segmentFeedback (templ : Templates) (bandMin bandMax : ℚ)
    (seg : Segment) : Option String :=
  if seg.normalizedLength > bandMax then
    if tooLongGap bandMax seg = 0 then none
    else some (substitute templ.tooLong seg.title (tooLongGap bandMax seg))
  else if seg.normalizedLength < bandMin then
    some (substitute templ.tooShort seg.title (tooShortGap bandMin seg))
  else
    templ.alright

/-- `buildFeedbackTexts` of the non-clamping variant: one entry per
segment, in order. -/
def buildFeedbackTexts (c : ContentState) (templ : Templates) :
    List (Option String) :=
  c.segments.map (segmentFeedback templ c.normalizedLengthMin c.normalizedLengthMax)

/-- `checkAnswer`'s text collection: `buildFeedbackTexts` with
`alright: null`, then `filter(text => text !== null)`. -/
def checkAnswerTexts (c : ContentState) (tooLongT tooShortT : String) :
    List String :=
  (buildFeedbackTexts c ⟨none, tooLongT, tooShortT⟩).filterMap id

/-- `this.segments.reduce((previous, current) => previous +
current.getWeight(), 0)` of the clamping variant. -/
def ContentState.totalWeight (c : ContentState) : ℕ :=
  c.segments.foldl (fun previous current => previous + current.weight) 0

/-- `this.mostImportantSegmentPercentage = refSeg.weight / totalWeight`. -/
def ContentState.mostImportantSegmentPercentage (c : ContentState) : ℚ :=
  (c.refSeg.weight : ℚ) / (c.totalWeight : ℚ)

/-- The two sequential clamps of `part_000`'s `buildFeedbackTexts`
(lines 128–137), returning the effective `(referenceLength,
slackPercentage)` pair. -/
def clampReference (referenceLength lo hi slackPercentage : ℚ) : ℚ × ℚ :=
  let p1 := if referenceLength < lo then (lo, (0 : ℚ))
            else (referenceLength, slackPercentage)
  if p1.1 > hi then (hi, (0 : ℚ)) else p1

/-- Per-segment body of `part_000`'s `buildFeedbackTexts` (lines
144–174): both gaps use `Math.round`. -/
def segmentFeedbackRound (templ : Templates) (bandMin bandMax : ℚ)
    (seg : Segment) : Option String :=
  if seg.normalizedLength > bandMax then
    if round ((seg.normalizedLength - bandMax) * (seg.weight : ℚ)) = 0 then none
    else some (substitute templ.tooLong seg.title
      (round ((seg.normalizedLength - bandMax) * (seg.weight : ℚ))))
  else if seg.normalizedLength < bandMin then
    some (substitute templ.tooShort seg.title
      (round ((bandMin - seg.normalizedLength) * (seg.weight : ℚ))))
  else
    templ.alright

/-- Absolute text length bounds of the clamping variant
(`params.textLengthMin` / `params.textLengthMax`). -/
structure LengthBounds where
  textLengthMin : ℚ
  textLengthMax : ℚ
deriving Repr, DecidableEq

/-- `buildFeedbackTexts` of the clamping variant (`part_000`, lines
125–177). -/
def buildFeedbackTextsClamped (c : ContentState) (p : LengthBounds)
    (templ : Templates) : List (Option String) :=
  let referenceLength0 : ℚ :=
    max ((c.refSeg.text.length : ℚ)) ((c.refSeg.weight : ℚ) / (c.gcdW : ℚ))
  let lo := p.textLengthMin * c.mostImportantSegmentPercentage
  let hi := p.textLengthMax * c.mostImportantSegmentPercentage
  let rs := clampReference referenceLength0 lo hi (c.slack / 100)
  let normalizedReferenceLength := rs.1 / (c.refSeg.weight : ℚ)
  let bandMax := normalizedReferenceLength * (1 + rs.2)
  let bandMin := normalizedReferenceLength * (1 - rs.2)
  c.segments.map (segmentFeedbackRound templ bandMin bandMax)

/-- Three-way classification of a normalized length against the band,
mirroring the branch structure of `buildFeedbackTexts`. -/
inductive Verdict where
  | tooShort
  | alright
  | tooLong
deriving Repr, DecidableEq

/-- Order of verdicts along the "more text" axis:
too-short < alright < too-long. -/
def verdictRank : Verdict → ℕ
  | .tooShort => 0
  | .alright => 1
  | .tooLong => 2

/-- The band comparison the spec describes: too-long above `bandMax`,
too-short below `bandMin`, alright inside. -/
def classify (bandMin bandMax normalizedLength : ℚ) : Verdict :=
  if normalizedLength > bandMax then .tooLong
  else if normalizedLength < bandMin then .tooShort
  else .alright

/-- Verdict the non-clamping evaluator assigns to segment `i`. -/
def segVerdict (c : ContentState) (i : ℕ) : Verdict :=
  classify c.normalizedLengthMin c.normalizedLengthMax
    ((c.segments.getD i c.seg0).normalizedLength)

/-- Replace segment `s`'s text. -/
def Segment.withText (s : Segment) (t : String) : Segment :=
  { s with text := t }

/-- Update the text of segment `i` (the presentation layer mutating
one segment's textarea). -/
def setText (c : ContentState) (i : ℕ) (t : String) : ContentState :=
  match i with
  | 0 => ⟨c.seg0.withText t, c.rest, c.slack⟩
  | n + 1 =>
      ⟨c.seg0, c.rest.set n ((c.rest.getD n c.seg0).withText t), c.slack⟩

/-- The spec scenario's first segment. -/
def introSegment : Segment := ⟨"Intro", 1, "Hi"⟩

/-- The spec scenario's second segment. -/
def bodySegment : Segment := ⟨"Body", 3, ""⟩

/-- The spec scenario's content state: `[Intro, Body]`, slack 10. -/
def scenarioState : ContentState := ⟨introSegment, [bodySegment], 10⟩

/-- Templates with `@chars`/`@title` tokens for the spec scenario. -/
def scenarioTemplates : Templates :=
  ⟨some "@title looks good.",
   "@title is too long, remove @chars characters.",
   "@title is too short, add @chars characters."⟩

/-- Length bounds wide enough that neither clamp fires in the spec
scenario. -/
def scenarioBounds : LengthBounds := ⟨0, 1000⟩

/-- A state whose weight list is `[0]`, the only shape on which
`greatestCommonDivisorArray` yields `0`. -/
def gcdZeroState : ContentState := ⟨⟨"Solo", 0, "ab"⟩, [], 10⟩

/-! ## Helper lemmas -/

/-- The JS Euclidean recursion computes `Nat.gcd` (arguments swapped). -/
theorem greatestCommonDivisor_eq_gcd (b a : ℕ) :
    greatestCommonDivisor a b = Nat.gcd b a := by
  induction b using Nat.strong_induction_on generalizing a with
  | _ b ih =>
    rw [greatestCommonDivisor]
    by_cases hb : b = 0
    · simp [hb]
    · rw [dif_neg hb, ih (a % b) (Nat.mod_lt _ (Nat.pos_of_ne_zero hb))]
      exact (Nat.gcd_rec b a).symm

/-- Folding `gcdStep` over positive weights divides the seed and every
element. -/
theorem foldl_gcdStep_dvd (ws : List ℕ) (w : ℕ) (hw : 0 < w)
    (hws : ∀ x ∈ ws, 0 < x) :
    ws.foldl gcdStep w ∣ w ∧ ∀ x ∈ ws, ws.foldl gcdStep w ∣ x := by
  induction ws generalizing w with
  | nil => exact ⟨dvd_refl w, by simp⟩
  | cons cw cs ih =>
    have hstep : gcdStep w cw = Nat.gcd cw w := by
      rw [gcdStep, if_neg hw.ne', greatestCommonDivisor_eq_gcd]
    have hpos : 0 < Nat.gcd cw w := Nat.gcd_pos_of_pos_right _ hw
    obtain ⟨h1, h2⟩ := ih (Nat.gcd cw w) hpos
      (fun x hx => hws x (List.mem_cons_of_mem _ hx))
    refine ⟨?_, ?_⟩
    · simp only [List.foldl_cons, hstep]
      exact dvd_trans h1 (Nat.gcd_dvd_right cw w)
    · intro x hx
      rcases List.mem_cons.mp hx with hx | hx
      · subst hx
        simp only [List.foldl_cons, hstep]
        exact dvd_trans h1 (Nat.gcd_dvd_left x w)
      · simp only [List.foldl_cons, hstep]
        exact h2 x hx

/-! ## Claim theorems -/

/-- C6: for every non-empty list of positive integer weights,
`greatestCommonDivisorArray` (the pairwise Euclidean fold with
`gcd(a,0)=a` and a falsy accumulator replaced by `1`) evenly divides
every weight in the list, and on a single-element list `[w]` it
returns `w` itself. -/
theorem c6_weightGCD_divides (w : ℕ) (ws : List ℕ) (hw : 0 < w)
    (hws : ∀ x ∈ ws, 0 < x) :
    (∀ x ∈ w :: ws, ws.foldl gcdStep w ∣ x) ∧
    greatestCommonDivisorArray (w :: ws) = some (ws.foldl gcdStep w) ∧
    greatestCommonDivisorArray [w] = some w := by
  obtain ⟨h1, h2⟩ := foldl_gcdStep_dvd ws w hw hws
  refine ⟨?_, rfl, rfl⟩
  intro x hx
  rcases List.mem_cons.mp hx with hx | hx
  · subst hx; exact h1
  · exact h2 x hx

/-- Witness for C6 at weights `[6, 9, 15]`. -/
theorem c6_weightGCD_divides_witness :
    ([9, 15].foldl gcdStep 6 ∣ 15) ∧ greatestCommonDivisorArray [6] = some 6 :=
  ⟨(c6_weightGCD_divides 6 [9, 15] (by decide) (by decide)).1 15 (by decide),
   (c6_weightGCD_divides 6 [9, 15] (by decide) (by decide)).2.2⟩

/-- C7: in the clamping evaluation variant, whenever the reference
length falls below `textLengthMin * referenceShare` it is raised to
that floor with slack zeroed for the evaluation, and symmetrically it
is lowered to `textLengthMax * referenceShare` with slack zeroed when
it exceeds that ceiling. -/
theorem c7_clamping (c : ContentState) (p : LengthBounds) (refLen : ℚ)
    (h : p.textLengthMin * c.mostImportantSegmentPercentage ≤
      p.textLengthMax * c.mostImportantSegmentPercentage) :
    (refLen < p.textLengthMin * c.mostImportantSegmentPercentage →
      clampReference refLen (p.textLengthMin * c.mostImportantSegmentPercentage)
        (p.textLengthMax * c.mostImportantSegmentPercentage) (c.slack / 100)
        = (p.textLengthMin * c.mostImportantSegmentPercentage, 0)) ∧
    (refLen > p.textLengthMax * c.mostImportantSegmentPercentage →
      clampReference refLen (p.textLengthMin * c.mostImportantSegmentPercentage)
        (p.textLengthMax * c.mostImportantSegmentPercentage) (c.slack / 100)
        = (p.textLengthMax * c.mostImportantSegmentPercentage, 0)) := by
  constructor
  · intro h1
    simp only [clampReference, if_pos h1]
    rw [if_neg (not_lt.mpr h)]
  · intro h1
    have h2 : ¬ (refLen < p.textLengthMin * c.mostImportantSegmentPercentage) :=
      not_lt.mpr (le_trans h (le_of_lt h1))
    simp only [clampReference, if_neg h2]
    rw [if_pos h1]

/-- Witness for C7: a one-segment state with bounds `[100, 200]`; a
reference length of `5` is clamped up, one of `900` is clamped down. -/
theorem c7_clamping_witness :
    clampReference 5
      ((100 : ℚ) * (ContentState.mk ⟨"A", 1, ""⟩ [] 10).mostImportantSegmentPercentage)
      ((200 : ℚ) * (ContentState.mk ⟨"A", 1, ""⟩ [] 10).mostImportantSegmentPercentage)
      ((10 : ℚ) / 100)
      = ((100 : ℚ) * (ContentState.mk ⟨"A", 1, ""⟩ [] 10).mostImportantSegmentPercentage, 0) ∧
    clampReference 900
      ((100 : ℚ) * (ContentState.mk ⟨"A", 1, ""⟩ [] 10).mostImportantSegmentPercentage)
      ((200 : ℚ) * (ContentState.mk ⟨"A", 1, ""⟩ [] 10).mostImportantSegmentPercentage)
      ((10 : ℚ) / 100)
      = ((200 : ℚ) * (ContentState.mk ⟨"A", 1, ""⟩ [] 10).mostImportantSegmentPercentage, 0) := by
  have hp : (ContentState.mk ⟨"A", 1, ""⟩ [] 10).mostImportantSegmentPercentage = 1 := by
    norm_num [ContentState.mostImportantSegmentPercentage, ContentState.refSeg,
      ContentState.refIdx, ContentState.weights, ContentState.segments,
      ContentState.totalWeight, mostImportantIndexW, refPairAux]
  constructor
  · exact (c7_clamping (ContentState.mk ⟨"A", 1, ""⟩ [] 10) ⟨100, 200⟩ 5
      (by rw [LengthBounds.textLengthMin, LengthBounds.textLengthMax]; rw [hp]; norm_num)).1
      (by rw [LengthBounds.textLengthMin]; rw [hp]; norm_num)
  · exact (c7_clamping (ContentState.mk ⟨"A", 1, ""⟩ [] 10) ⟨100, 200⟩ 900
      (by rw [LengthBounds.textLengthMin, LengthBounds.textLengthMax]; rw [hp]; norm_num)).2
      (by rw [LengthBounds.textLengthMax]; rw [hp]; norm_num)

/-- C3: on the spec scenario (`Intro` weight 1 text `"Hi"`, `Body`
weight 3 text `""`, slack 10, templates with `@chars`/`@title`
tokens), evaluation selects `Body` as reference, the reference length
is `max(0, 3/gcd(1,3)) = 3`, the normalized reference is `1`, and
`Intro` (normalized length 2 > bandMax 1.1) is classified too-long
with reported gap `round((2 - 1.1) * 1) = 1`.  The gap formula of the
scenario is `Math.round`, the rounding of the `part_000` evaluator;
its length bounds are taken wide enough that no clamp fires. -/
theorem c3_scenario :
    scenarioState.refSeg = bodySegment ∧
    scenarioState.referenceLength = 3 ∧
    scenarioState.normalizedReferenceLength = 1 ∧
    buildFeedbackTextsClamped scenarioState scenarioBounds scenarioTemplates
      = [some "Intro is too long, remove 1 characters.",
         some "Body is too short, add 3 characters."] := by
  have hg : scenarioState.gcdW = 1 := by
    simp [ContentState.gcdW, scenarioState, introSegment, bodySegment, gcdStep,
      greatestCommonDivisor_eq_gcd]
  have href : scenarioState.refSeg = bodySegment := by decide
  have hpct : scenarioState.mostImportantSegmentPercentage = 3 / 4 := by
    rw [ContentState.mostImportantSegmentPercentage, href]
    norm_num [ContentState.totalWeight, ContentState.segments, scenarioState,
      introSegment, bodySegment]
  have hlen : scenarioState.referenceLength = 3 := by
    rw [ContentState.referenceLength, hg, href]
    norm_num [bodySegment]
  refine ⟨href, hlen, ?_, ?_⟩
  · rw [ContentState.normalizedReferenceLength, hlen, href]
    norm_num [bodySegment]
  · simp only [buildFeedbackTextsClamped, hg, href, hpct]
    have h2 : ("Hi" : String).length = 2 := rfl
    norm_num [scenarioState, scenarioBounds, introSegment, bodySegment,
      ContentState.segments, clampReference, segmentFeedbackRound,
      Segment.normalizedLength, round_eq, h2]
    decide

/-- C9 counterexample: with the only weight list giving
`weightGCD = 0` (a single zero-weight segment), `buildFeedbackTexts`
raises no error: it proceeds with the band computation and returns the
ordinary alright entry.  No code path of either evaluator constructs
an `InvalidWeightError` (or any error). -/
theorem c9_no_invalid_weight_error :
    gcdZeroState.gcdW = 0 ∧
    buildFeedbackTexts gcdZeroState scenarioTemplates
      = [some "@title looks good."] := by
  refine ⟨rfl, ?_⟩
  norm_num [buildFeedbackTexts, gcdZeroState, ContentState.segments,
    ContentState.normalizedLengthMin, ContentState.normalizedLengthMax,
    ContentState.normalizedReferenceLength, ContentState.referenceLength,
    ContentState.refSeg, ContentState.refIdx, ContentState.weights,
    ContentState.gcdW, mostImportantIndexW, refPairAux, gcdStep,
    segmentFeedback, Segment.normalizedLength, scenarioTemplates]

/-- C9 amended: evaluation never fails; for every state (including
`weightGCD = 0`) `buildFeedbackTexts` completes the band computation
and returns exactly one (possibly suppressed) entry per segment. -/
theorem c9_evaluate_total (c : ContentState) (templ : Templates) :
    (buildFeedbackTexts c templ).length = c.segments.length := by
  simp [buildFeedbackTexts]

/-- `buildFeedbackTexts` entry `i` is the per-segment feedback of
segment `i`. -/
theorem buildFeedbackTexts_getD (c : ContentState) (templ : Templates)
    (i : ℕ) (hi : i < c.segments.length) :
    (buildFeedbackTexts c templ).getD i none
      = segmentFeedback templ c.normalizedLengthMin c.normalizedLengthMax
          (c.segments.getD i c.seg0) := by
  rw [buildFeedbackTexts, List.getD_eq_getElem _ _ (by simpa using hi),
    List.getElem_map, List.getD_eq_getElem _ _ hi]

/-- C4: every reported gap is a non-negative integer (too-short gaps
are even ≥ 1), and a segment above `bandMax` whose rounded too-long
gap is `0` yields the suppressed `null` entry, not the alright
result. -/
theorem c4_gaps (c : ContentState) (templ : Templates) (i : ℕ)
    (hi : i < c.segments.length) (hw : ∀ s ∈ c.segments, 0 < s.weight) :
    ((c.segments.getD i c.seg0).normalizedLength > c.normalizedLengthMax →
        0 ≤ tooLongGap c.normalizedLengthMax (c.segments.getD i c.seg0)) ∧
    ((c.segments.getD i c.seg0).normalizedLength < c.normalizedLengthMin →
        1 ≤ tooShortGap c.normalizedLengthMin (c.segments.getD i c.seg0)) ∧
    ((c.segments.getD i c.seg0).normalizedLength > c.normalizedLengthMax →
      tooLongGap c.normalizedLengthMax (c.segments.getD i c.seg0) = 0 →
      (buildFeedbackTexts c templ).getD i none = none) := by
  have hseg : c.segments.getD i c.seg0 ∈ c.segments := by
    rw [List.getD_eq_getElem _ _ hi]; exact List.getElem_mem hi
  refine ⟨?_, ?_, ?_⟩
  · intro h
    exact Int.floor_nonneg.mpr
      (mul_nonneg (sub_nonneg.mpr (le_of_lt h)) (Nat.cast_nonneg _))
  · intro h
    have hwpos : 0 < (((c.segments.getD i c.seg0).weight : ℕ) : ℚ) := by
      exact_mod_cast hw _ hseg
    have hpos : 0 < tooShortGap c.normalizedLengthMin (c.segments.getD i c.seg0) :=
      Int.ceil_pos.mpr (mul_pos (sub_pos.mpr h) hwpos)
    omega
  · intro h h0
    rw [buildFeedbackTexts_getD c templ i hi, segmentFeedback, if_pos h, if_pos h0]

/-- Witness for C4 on the spec scenario: `Intro` sits above the band
with a floored gap of `0` (suppressed entry), `Body` sits below it
with gap ≥ 1. -/
theorem c4_gaps_witness :
    (0 ≤ tooLongGap scenarioState.normalizedLengthMax
        (scenarioState.segments.getD 0 scenarioState.seg0)) ∧
    (1 ≤ tooShortGap scenarioState.normalizedLengthMin
        (scenarioState.segments.getD 1 scenarioState.seg0)) ∧
    (buildFeedbackTexts scenarioState scenarioTemplates).getD 0 none = none := by
  have hg : scenarioState.gcdW = 1 := by
    simp [ContentState.gcdW, scenarioState, introSegment, bodySegment, gcdStep,
      greatestCommonDivisor_eq_gcd]
  have href : scenarioState.refSeg = bodySegment := by decide
  have hnil : ("" : String).length = 0 := rfl
  have hHi : ("Hi" : String).length = 2 := rfl
  have hmax : scenarioState.normalizedLengthMax = 11 / 10 := by
    rw [ContentState.normalizedLengthMax, ContentState.normalizedReferenceLength,
      ContentState.referenceLength, hg, href]
    norm_num [bodySegment, scenarioState, hnil]
  have hmin : scenarioState.normalizedLengthMin = 9 / 10 := by
    rw [ContentState.normalizedLengthMin, ContentState.normalizedReferenceLength,
      ContentState.referenceLength, hg, href]
    norm_num [bodySegment, scenarioState, hnil]
  have h0 := c4_gaps scenarioState scenarioTemplates 0 (by decide) (by decide)
  have h1 := c4_gaps scenarioState scenarioTemplates 1 (by decide) (by decide)
  have hintro : scenarioState.segments.getD 0 scenarioState.seg0 = introSegment := rfl
  have hbody : scenarioState.segments.getD 1 scenarioState.seg0 = bodySegment := rfl
  have hnl0 : (scenarioState.segments.getD 0 scenarioState.seg0).normalizedLength
      > scenarioState.normalizedLengthMax := by
    rw [hintro, hmax]; norm_num [Segment.normalizedLength, introSegment, hHi]
  have hnl1 : (scenarioState.segments.getD 1 scenarioState.seg0).normalizedLength
      < scenarioState.normalizedLengthMin := by
    rw [hbody, hmin]; norm_num [Segment.normalizedLength, bodySegment, hnil]
  have hgap : tooLongGap scenarioState.normalizedLengthMax
      (scenarioState.segments.getD 0 scenarioState.seg0) = 0 := by
    rw [hintro, hmax, tooLongGap]
    norm_num [Segment.normalizedLength, introSegment, hHi]
  exact ⟨h0.1 hnl0, (h1.2.1) hnl1, h0.2.2 hnl0 hgap⟩

/-- `buildFeedbackTexts` has one entry per segment. -/
theorem length_buildFeedbackTexts (c : ContentState) (templ : Templates) :
    (buildFeedbackTexts c templ).length = c.segments.length := by
  simp [buildFeedbackTexts]

/-- The normalized reference length is non-negative. -/
theorem normalizedReferenceLength_nonneg (c : ContentState) :
    0 ≤ c.normalizedReferenceLength := by
  refine div_nonneg ?_ (Nat.cast_nonneg _)
  exact le_trans (Nat.cast_nonneg _) (le_max_left _ _)

/-- With non-negative slack the band is well ordered. -/
theorem normalizedLengthMin_le_max (c : ContentState) (hs : 0 ≤ c.slack) :
    c.normalizedLengthMin ≤ c.normalizedLengthMax := by
  refine mul_le_mul_of_nonneg_left ?_ (normalizedReferenceLength_nonneg c)
  have : 0 ≤ c.slack / 100 := by positivity
  linarith

/-- C1: the feedback band is derived as `referenceLength =
max(refSeg.text.length, refSeg.weight / weightGCD)`,
`normalizedReference = referenceLength / refSeg.weight`, `bandMax =
normalizedReference * (1 + slack/100)`, `bandMin = normalizedReference
* (1 - slack/100)`, and each segment is classified by comparing its
`text.length / weight` against the band: too-long output above
`bandMax` (possibly suppressed), too-short output below `bandMin`,
the alright text otherwise. -/
theorem c1_band_classification (c : ContentState) (templ : Templates)
    (i : ℕ) (hi : i < c.segments.length)
    (hw : ∀ s ∈ c.segments, 0 < s.weight) :
    c.normalizedLengthMax
      = (max ((c.refSeg.text.length : ℚ)) ((c.refSeg.weight : ℚ) / (c.gcdW : ℚ))
          / (c.refSeg.weight : ℚ)) * (1 + c.slack / 100) ∧
    c.normalizedLengthMin
      = (max ((c.refSeg.text.length : ℚ)) ((c.refSeg.weight : ℚ) / (c.gcdW : ℚ))
          / (c.refSeg.weight : ℚ)) * (1 - c.slack / 100) ∧
    ((c.segments.getD i c.seg0).normalizedLength > c.normalizedLengthMax →
      (buildFeedbackTexts c templ).getD i none = none ∨
      (buildFeedbackTexts c templ).getD i none
        = some (substitute templ.tooLong (c.segments.getD i c.seg0).title
            (tooLongGap c.normalizedLengthMax (c.segments.getD i c.seg0)))) ∧
    (¬ (c.segments.getD i c.seg0).normalizedLength > c.normalizedLengthMax →
      (c.segments.getD i c.seg0).normalizedLength < c.normalizedLengthMin →
      (buildFeedbackTexts c templ).getD i none
        = some (substitute templ.tooShort (c.segments.getD i c.seg0).title
            (tooShortGap c.normalizedLengthMin (c.segments.getD i c.seg0)))) ∧
    (¬ (c.segments.getD i c.seg0).normalizedLength > c.normalizedLengthMax →
      ¬ (c.segments.getD i c.seg0).normalizedLength < c.normalizedLengthMin →
      (buildFeedbackTexts c templ).getD i none = templ.alright) := by
  refine ⟨rfl, rfl, ?_, ?_, ?_⟩
  · intro h
    rw [buildFeedbackTexts_getD c templ i hi, segmentFeedback, if_pos h]
    by_cases h0 : tooLongGap c.normalizedLengthMax (c.segments.getD i c.seg0) = 0
    · rw [if_pos h0]; exact Or.inl rfl
    · rw [if_neg h0]; exact Or.inr rfl
  · intro h h2
    rw [buildFeedbackTexts_getD c templ i hi, segmentFeedback, if_neg h, if_pos h2]
  · intro h h2
    rw [buildFeedbackTexts_getD c templ i hi, segmentFeedback, if_neg h, if_neg h2]

/-- Witness for C1 on the spec scenario, segment `Body` (too-short
branch). -/
theorem c1_band_classification_witness :
    (buildFeedbackTexts scenarioState scenarioTemplates).getD 1 none
      = some (substitute scenarioTemplates.tooShort
          (scenarioState.segments.getD 1 scenarioState.seg0).title
          (tooShortGap scenarioState.normalizedLengthMin
            (scenarioState.segments.getD 1 scenarioState.seg0))) := by
  have hg : scenarioState.gcdW = 1 := by
    simp [ContentState.gcdW, scenarioState, introSegment, bodySegment, gcdStep,
      greatestCommonDivisor_eq_gcd]
  have href : scenarioState.refSeg = bodySegment := by decide
  have hnil : ("" : String).length = 0 := rfl
  have hmax : scenarioState.normalizedLengthMax = 11 / 10 := by
    rw [ContentState.normalizedLengthMax, ContentState.normalizedReferenceLength,
      ContentState.referenceLength, hg, href]
    norm_num [bodySegment, scenarioState, hnil]
  have hmin : scenarioState.normalizedLengthMin = 9 / 10 := by
    rw [ContentState.normalizedLengthMin, ContentState.normalizedReferenceLength,
      ContentState.referenceLength, hg, href]
    norm_num [bodySegment, scenarioState, hnil]
  have hbody : scenarioState.segments.getD 1 scenarioState.seg0 = bodySegment := rfl
  refine (c1_band_classification scenarioState scenarioTemplates 1
    (by decide) (by decide)).2.2.2.1 ?_ ?_
  · rw [hbody, hmax]; norm_num [Segment.normalizedLength, bodySegment, hnil]
  · rw [hbody, hmin]; norm_num [Segment.normalizedLength, bodySegment, hnil]

/-- C2: on the on-request (`checkAnswer`) path the too-long gap is
`Math.floor((normalizedLength - bandMax) * weight)` and the too-short
gap `Math.ceil((bandMin - normalizedLength) * weight)`, so the
reported "remove N characters" never overstates and the reported "add
N characters" never understates the true fractional gap; the reported
entries carry exactly those gaps. -/
theorem c2_conservative_gaps (c : ContentState) (i : ℕ)
    (tooLongT tooShortT : String) (hi : i < c.segments.length)
    (hw : ∀ s ∈ c.segments, 0 < s.weight) (hs : 0 ≤ c.slack) :
    ((c.segments.getD i c.seg0).normalizedLength > c.normalizedLengthMax →
      ((tooLongGap c.normalizedLengthMax (c.segments.getD i c.seg0) : ℚ)
          ≤ ((c.segments.getD i c.seg0).normalizedLength - c.normalizedLengthMax)
              * ((c.segments.getD i c.seg0).weight : ℚ)) ∧
      (tooLongGap c.normalizedLengthMax (c.segments.getD i c.seg0) ≠ 0 →
        (buildFeedbackTexts c ⟨none, tooLongT, tooShortT⟩).getD i none
          = some (substitute tooLongT (c.segments.getD i c.seg0).title
              (tooLongGap c.normalizedLengthMax (c.segments.getD i c.seg0))))) ∧
    ((c.segments.getD i c.seg0).normalizedLength < c.normalizedLengthMin →
      ((c.normalizedLengthMin - (c.segments.getD i c.seg0).normalizedLength)
          * ((c.segments.getD i c.seg0).weight : ℚ)
        ≤ (tooShortGap c.normalizedLengthMin (c.segments.getD i c.seg0) : ℚ)) ∧
      (buildFeedbackTexts c ⟨none, tooLongT, tooShortT⟩).getD i none
        = some (substitute tooShortT (c.segments.getD i c.seg0).title
            (tooShortGap c.normalizedLengthMin (c.segments.getD i c.seg0))) ∧
      substitute tooShortT (c.segments.getD i c.seg0).title
          (tooShortGap c.normalizedLengthMin (c.segments.getD i c.seg0))
        ∈ checkAnswerTexts c tooLongT tooShortT) := by
  constructor
  · intro h
    refine ⟨Int.floor_le _, ?_⟩
    intro hne
    rw [buildFeedbackTexts_getD c ⟨none, tooLongT, tooShortT⟩ i hi,
      segmentFeedback, if_pos h, if_neg hne]
  · intro h
    have hnot : ¬ (c.segments.getD i c.seg0).normalizedLength > c.normalizedLengthMax :=
      not_lt.mpr (le_trans (le_of_lt h) (normalizedLengthMin_le_max c hs))
    have hout : (buildFeedbackTexts c ⟨none, tooLongT, tooShortT⟩).getD i none
        = some (substitute tooShortT (c.segments.getD i c.seg0).title
            (tooShortGap c.normalizedLengthMin (c.segments.getD i c.seg0))) := by
      rw [buildFeedbackTexts_getD c ⟨none, tooLongT, tooShortT⟩ i hi,
        segmentFeedback, if_neg hnot, if_pos h]
    refine ⟨Int.le_ceil _, hout, ?_⟩
    have hlen : i < (buildFeedbackTexts c ⟨none, tooLongT, tooShortT⟩).length := by
      rw [length_buildFeedbackTexts]; exact hi
    have hElem : (buildFeedbackTexts c ⟨none, tooLongT, tooShortT⟩)[i]
        = some (substitute tooShortT (c.segments.getD i c.seg0).title
            (tooShortGap c.normalizedLengthMin (c.segments.getD i c.seg0))) := by
      rw [← List.getD_eq_getElem _ none hlen, hout]
    have hmem := List.getElem_mem hlen
    rw [hElem] at hmem
    exact List.mem_filterMap.mpr ⟨_, hmem, rfl⟩

/-- Witness for C2 on the spec scenario, segment `Body` (too-short
branch), with on-request templates. -/
theorem c2_conservative_gaps_witness :
    ((scenarioState.normalizedLengthMin
        - (scenarioState.segments.getD 1 scenarioState.seg0).normalizedLength)
      * ((scenarioState.segments.getD 1 scenarioState.seg0).weight : ℚ)
      ≤ (tooShortGap scenarioState.normalizedLengthMin
          (scenarioState.segments.getD 1 scenarioState.seg0) : ℚ)) ∧
    (buildFeedbackTexts scenarioState
        ⟨none, "Remove @chars from @title.", "Add @chars to @title."⟩).getD 1 none
      = some (substitute "Add @chars to @title."
          (scenarioState.segments.getD 1 scenarioState.seg0).title
          (tooShortGap scenarioState.normalizedLengthMin
            (scenarioState.segments.getD 1 scenarioState.seg0))) ∧
    substitute "Add @chars to @title."
        (scenarioState.segments.getD 1 scenarioState.seg0).title
        (tooShortGap scenarioState.normalizedLengthMin
          (scenarioState.segments.getD 1 scenarioState.seg0))
      ∈ checkAnswerTexts scenarioState "Remove @chars from @title."
          "Add @chars to @title." := by
  have hg : scenarioState.gcdW = 1 := by
    simp [ContentState.gcdW, scenarioState, introSegment, bodySegment, gcdStep,
      greatestCommonDivisor_eq_gcd]
  have href : scenarioState.refSeg = bodySegment := by decide
  have hnil : ("" : String).length = 0 := rfl
  have hmin : scenarioState.normalizedLengthMin = 9 / 10 := by
    rw [ContentState.normalizedLengthMin, ContentState.normalizedReferenceLength,
      ContentState.referenceLength, hg, href]
    norm_num [bodySegment, scenarioState, hnil]
  have hbody : scenarioState.segments.getD 1 scenarioState.seg0 = bodySegment := rfl
  refine (c2_conservative_gaps scenarioState 1 "Remove @chars from @title."
    "Add @chars to @title." (by decide) (by decide) (by norm_num [scenarioState])).2 ?_
  rw [hbody, hmin]
  norm_num [Segment.normalizedLength, bodySegment, hnil]

/-- Characterization of the indexed reduce: the kept pair dominates
the seed and every scanned weight, and it is either the seed or the
first strictly dominating entry (every earlier entry is strictly
smaller). -/
theorem refPairAux_spec (ws : List ℕ) (b : ℕ × ℕ) (k : ℕ) :
    b.2 ≤ (refPairAux b k ws).2 ∧
    (∀ x ∈ ws, x ≤ (refPairAux b k ws).2) ∧
    (refPairAux b k ws = b ∨
      ∃ j, j < ws.length ∧ refPairAux b k ws = (k + j, ws.getD j 0) ∧
        b.2 < ws.getD j 0 ∧ ∀ j2, j2 < j → ws.getD j2 0 < ws.getD j 0) := by
  induction ws generalizing b k with
  | nil => exact ⟨le_refl _, by simp, Or.inl rfl⟩
  | cons w ws ih =>
    by_cases hw : w > b.2
    · have hb : refPairAux b k (w :: ws) = refPairAux (k, w) (k + 1) ws := by
        rw [refPairAux, if_pos hw]
      obtain ⟨ih1, ih2, ih3⟩ := ih (k, w) (k + 1)
      rw [hb]
      refine ⟨le_trans (le_of_lt hw) ih1, ?_, ?_⟩
      · intro x hx
        rcases List.mem_cons.mp hx with hx | hx
        · exact hx ▸ ih1
        · exact ih2 x hx
      · rcases ih3 with h | ⟨j, hj, hre, hlt, hfirst⟩
        · refine Or.inr ⟨0, by simp, ?_, ?_, ?_⟩
          · simpa using h
          · simpa using hw
          · intro j2 hj2; omega
        · refine Or.inr ⟨j + 1, by simpa using hj, ?_, ?_, ?_⟩
          · rw [hre, List.getD_cons_succ]
            congr 1
            omega
          · rw [List.getD_cons_succ]
            exact lt_trans hw hlt
          · intro j2 hj2
            cases j2 with
            | zero => rw [List.getD_cons_zero, List.getD_cons_succ]; exact hlt
            | succ m =>
              rw [List.getD_cons_succ, List.getD_cons_succ]
              exact hfirst m (by omega)
    · have hb : refPairAux b k (w :: ws) = refPairAux b (k + 1) ws := by
        rw [refPairAux, if_neg hw]
      obtain ⟨ih1, ih2, ih3⟩ := ih b (k + 1)
      rw [hb]
      refine ⟨ih1, ?_, ?_⟩
      · intro x hx
        rcases List.mem_cons.mp hx with hx | hx
        · exact hx ▸ le_trans (le_of_not_lt hw) ih1
        · exact ih2 x hx
      · rcases ih3 with h | ⟨j, hj, hre, hlt, hfirst⟩
        · exact Or.inl h
        · refine Or.inr ⟨j + 1, by simpa using hj, ?_, ?_, ?_⟩
          · rw [hre, List.getD_cons_succ]
            congr 1
            omega
          · rw [List.getD_cons_succ]
            exact hlt
          · intro j2 hj2
            cases j2 with
            | zero =>
              rw [List.getD_cons_zero, List.getD_cons_succ]
              exact lt_of_le_of_lt (le_of_not_lt hw) hlt
            | succ m =>
              rw [List.getD_cons_succ, List.getD_cons_succ]
              exact hfirst m (by omega)

/-- Weight of the `j`-th segment through the mapped weight list. -/
theorem weight_getD_map (l : List Segment) (d : Segment) (j : ℕ)
    (h : j < l.length) :
    (l.map (fun s => s.weight)).getD j 0 = (l.getD j d).weight := by
  rw [List.getD_eq_getElem _ _ (by simpa using h), List.getElem_map,
    List.getD_eq_getElem _ _ h]

/-- In-range `getD` values are members. -/
theorem getD_mem_of_lt (l : List ℕ) (j : ℕ) (h : j < l.length) :
    l.getD j 0 ∈ l := by
  rw [List.getD_eq_getElem _ _ h]
  exact List.getElem_mem h

/-- C5: for every non-empty segment list, the reference segment chosen
at construction has weight ≥ every other segment's weight, and every
segment before it in input order has strictly smaller weight (so on
ties the first max-weight segment in input order is chosen). -/
theorem c5_reference_segment (c : ContentState) :
    c.refIdx < c.segments.length ∧
    (∀ j, j < c.segments.length →
      (c.segments.getD j c.seg0).weight ≤ c.refSeg.weight) ∧
    (∀ j, j < c.refIdx →
      (c.segments.getD j c.seg0).weight < c.refSeg.weight) := by
  obtain ⟨h1, h2, h3⟩ :=
    refPairAux_spec (c.rest.map (fun s => s.weight)) (0, c.seg0.weight) 1
  have hseg0 : c.segments.getD 0 c.seg0 = c.seg0 := rfl
  have hsegS : ∀ m, c.segments.getD (m + 1) c.seg0 = c.rest.getD m c.seg0 :=
    fun _ => rfl
  have hlen : c.segments.length = c.rest.length + 1 := by
    simp [ContentState.segments]
  rcases h3 with hcase | ⟨j, hj, hre, hlt, hfirst⟩
  · have hIdx : c.refIdx = 0 := by
      show (refPairAux (0, c.seg0.weight) 1 (c.rest.map (fun s => s.weight))).1 = 0
      rw [hcase]
    have hP2 : (refPairAux (0, c.seg0.weight) 1 (c.rest.map (fun s => s.weight))).2
        = c.seg0.weight := by
      rw [hcase]
    have href : c.refSeg.weight = c.seg0.weight := by
      rw [ContentState.refSeg, hIdx, hseg0]
    refine ⟨by omega, ?_, ?_⟩
    · intro j hjl
      rw [href]
      cases j with
      | zero => rw [hseg0]
      | succ m =>
        rw [hsegS m]
        have hm : m < c.rest.length := by omega
        have hx := h2 _ (getD_mem_of_lt _ m (by simpa using hm))
        rw [hP2, weight_getD_map c.rest c.seg0 m hm] at hx
        exact hx
    · intro j hj0
      rw [hIdx] at hj0
      omega
  · have hjr : j < c.rest.length := by simpa using hj
    have hIdx : c.refIdx = 1 + j := by
      show (refPairAux (0, c.seg0.weight) 1 (c.rest.map (fun s => s.weight))).1 = 1 + j
      rw [hre]
    have hP2 : (refPairAux (0, c.seg0.weight) 1 (c.rest.map (fun s => s.weight))).2
        = (c.rest.map (fun s => s.weight)).getD j 0 := by
      rw [hre]
    have hrefw : c.refSeg.weight = (c.rest.map (fun s => s.weight)).getD j 0 := by
      rw [ContentState.refSeg, hIdx]
      have h1j : 1 + j = j + 1 := by omega
      rw [h1j, hsegS j, weight_getD_map c.rest c.seg0 j hjr]
    refine ⟨by omega, ?_, ?_⟩
    · intro j2 hj2
      rw [hrefw]
      cases j2 with
      | zero => rw [hseg0]; exact le_of_lt hlt
      | succ m =>
        rw [hsegS m]
        have hm : m < c.rest.length := by omega
        have hx := h2 _ (getD_mem_of_lt _ m (by simpa using hm))
        rw [hP2, weight_getD_map c.rest c.seg0 m hm] at hx
        exact hx
    · intro j2 hj2
      rw [hIdx] at hj2
      rw [hrefw]
      cases j2 with
      | zero => rw [hseg0]; exact hlt
      | succ m =>
        rw [hsegS m]
        have hm : m < j := by omega
        have hx := hfirst m hm
        rw [weight_getD_map c.rest c.seg0 m (by omega)] at hx
        exact hx

/-- Replacing a segment's text leaves the weight list unchanged. -/
theorem map_weight_set (l : List Segment) (n : ℕ) (d : Segment) (t : String) :
    (l.set n ((l.getD n d).withText t)).map (fun s => s.weight)
      = l.map (fun s => s.weight) := by
  induction l generalizing n with
  | nil => simp
  | cons a as ih =>
    cases n with
    | zero => simp [Segment.withText]
    | succ m => simpa [Segment.withText] using ih m

/-- `setText` preserves the weight list. -/
theorem weights_setText (c : ContentState) (i : ℕ) (t : String) :
    (setText c i t).weights = c.weights := by
  cases i with
  | zero =>
    simp [setText, ContentState.weights, ContentState.segments, Segment.withText]
  | succ n =>
    simpa [setText, ContentState.weights, ContentState.segments, Segment.withText]
      using map_weight_set c.rest n c.seg0 t

/-- `setText` preserves the reference index. -/
theorem refIdx_setText (c : ContentState) (i : ℕ) (t : String) :
    (setText c i t).refIdx = c.refIdx := by
  rw [ContentState.refIdx, ContentState.refIdx, weights_setText]

/-- `setText` preserves the weight gcd. -/
theorem gcdW_setText (c : ContentState) (i : ℕ) (t : String) :
    (setText c i t).gcdW = c.gcdW := by
  cases i with
  | zero => simp [setText, ContentState.gcdW, Segment.withText]
  | succ n =>
    have h := map_weight_set c.rest n c.seg0 t
    simp only [setText, ContentState.gcdW, h]

/-- `setText` preserves the slack. -/
theorem slack_setText (c : ContentState) (i : ℕ) (t : String) :
    (setText c i t).slack = c.slack := by
  cases i <;> rfl

/-- `setText` is `List.set` on the segment list. -/
theorem segments_setText (c : ContentState) (i : ℕ) (t : String) :
    (setText c i t).segments
      = c.segments.set i ((c.segments.getD i c.seg0).withText t) := by
  cases i with
  | zero => simp [setText, ContentState.segments]
  | succ n => simp [setText, ContentState.segments]

/-- `setText` preserves the number of segments. -/
theorem length_segments_setText (c : ContentState) (i : ℕ) (t : String) :
    (setText c i t).segments.length = c.segments.length := by
  rw [segments_setText, List.length_set]

/-- The reference index is in range. -/
theorem refIdx_lt_length (c : ContentState) : c.refIdx < c.segments.length := by
  obtain ⟨h1, h2, h3⟩ :=
    refPairAux_spec (c.rest.map (fun s => s.weight)) (0, c.seg0.weight) 1
  have hlen : c.segments.length = c.rest.length + 1 := by
    simp [ContentState.segments]
  rcases h3 with hcase | ⟨j, hj, hre, hlt, hfirst⟩
  · have hIdx : c.refIdx = 0 := by
      show (refPairAux (0, c.seg0.weight) 1 (c.rest.map (fun s => s.weight))).1 = 0
      rw [hcase]
    omega
  · have hIdx : c.refIdx = 1 + j := by
      show (refPairAux (0, c.seg0.weight) 1 (c.rest.map (fun s => s.weight))).1 = 1 + j
      rw [hre]
    have hjr : j < c.rest.length := by simpa using hj
    omega

/-- An in-range `set` is read back by `getD`, whatever the default. -/
theorem getD_set_self {α : Type} (l : List α) (i : ℕ) (a d : α)
    (h : i < l.length) :
    (l.set i a).getD i d = a := by
  induction l generalizing i with
  | nil => simp at h
  | cons b bs ih =>
    cases i with
    | zero => rfl
    | succ m =>
      rw [List.set_cons_succ, List.getD_cons_succ]
      exact ih m (by simpa using h)

/-- In-range `getD` reads do not depend on the default. -/
theorem getD_eq_of_lt {α : Type} (l : List α) (j : ℕ) (d d2 : α)
    (h : j < l.length) :
    l.getD j d = l.getD j d2 := by
  induction l generalizing j with
  | nil => simp at h
  | cons b bs ih =>
    cases j with
    | zero => rfl
    | succ m =>
      rw [List.getD_cons_succ, List.getD_cons_succ]
      exact ih m (by simpa using h)

/-- `set` at another in-range index does not change a `getD` read. -/
theorem getD_set_ne {α : Type} (l : List α) (i j : ℕ) (a d d2 : α)
    (hj : j < l.length) (hne : i ≠ j) :
    (l.set i a).getD j d = l.getD j d2 := by
  induction l generalizing i j with
  | nil => simp at hj
  | cons b bs ih =>
    cases i with
    | zero =>
      cases j with
      | zero => exact absurd rfl hne
      | succ m =>
        show (a :: bs).getD (m + 1) d = (b :: bs).getD (m + 1) d2
        rw [List.getD_cons_succ, List.getD_cons_succ]
        exact getD_eq_of_lt bs m d d2 (by simpa using hj)
    | succ k =>
      cases j with
      | zero => rfl
      | succ m =>
        rw [List.set_cons_succ, List.getD_cons_succ, List.getD_cons_succ]
        exact ih k m (by simpa using hj) (by omega)

/-- Reading back the updated segment. -/
theorem getD_setText_self (c : ContentState) (i : ℕ) (t : String)
    (hi : i < c.segments.length) :
    (setText c i t).segments.getD i (setText c i t).seg0
      = (c.segments.getD i c.seg0).withText t := by
  rw [segments_setText]
  exact getD_set_self _ i _ _ hi

/-- Other segments are untouched by `setText`. -/
theorem getD_setText_ne (c : ContentState) (i j : ℕ) (t : String)
    (hj : j < c.segments.length) (hne : i ≠ j) :
    (setText c i t).segments.getD j (setText c i t).seg0
      = c.segments.getD j c.seg0 := by
  rw [segments_setText]
  exact getD_set_ne _ i j _ _ _ hj hne

/-- Updating a non-reference segment leaves the reference segment
unchanged. -/
theorem refSeg_setText_ne (c : ContentState) (i : ℕ) (t : String)
    (hne : i ≠ c.refIdx) :
    (setText c i t).refSeg = c.refSeg := by
  rw [ContentState.refSeg, ContentState.refSeg, refIdx_setText]
  exact getD_setText_ne c i c.refIdx t (refIdx_lt_length c) hne

/-- Updating the reference segment's text updates the reference
segment accordingly. -/
theorem refSeg_setText_self (c : ContentState) (t : String) :
    (setText c c.refIdx t).refSeg = c.refSeg.withText t := by
  rw [ContentState.refSeg, ContentState.refSeg, refIdx_setText]
  exact getD_setText_self c c.refIdx t (refIdx_lt_length c)

/-- The feedback band does not depend on a non-reference segment's
text. -/
theorem bands_setText_ne (c : ContentState) (i : ℕ) (t : String)
    (hne : i ≠ c.refIdx) :
    (setText c i t).normalizedLengthMax = c.normalizedLengthMax ∧
    (setText c i t).normalizedLengthMin = c.normalizedLengthMin := by
  have hr := refSeg_setText_ne c i t hne
  constructor
  · rw [ContentState.normalizedLengthMax, ContentState.normalizedLengthMax,
      ContentState.normalizedReferenceLength, ContentState.normalizedReferenceLength,
      ContentState.referenceLength, ContentState.referenceLength,
      hr, gcdW_setText, slack_setText]
  · rw [ContentState.normalizedLengthMin, ContentState.normalizedLengthMin,
      ContentState.normalizedReferenceLength, ContentState.normalizedReferenceLength,
      ContentState.referenceLength, ContentState.referenceLength,
      hr, gcdW_setText, slack_setText]

/-- The feedback band after updating the reference segment's text. -/
theorem bands_setText_ref (c : ContentState) (t : String) :
    (setText c c.refIdx t).normalizedLengthMax
      = (max ((t.length : ℚ)) ((c.refSeg.weight : ℚ) / (c.gcdW : ℚ))
          / (c.refSeg.weight : ℚ)) * (1 + c.slack / 100) ∧
    (setText c c.refIdx t).normalizedLengthMin
      = (max ((t.length : ℚ)) ((c.refSeg.weight : ℚ) / (c.gcdW : ℚ))
          / (c.refSeg.weight : ℚ)) * (1 - c.slack / 100) := by
  have hr := refSeg_setText_self c t
  constructor
  · rw [ContentState.normalizedLengthMax, ContentState.normalizedReferenceLength,
      ContentState.referenceLength, hr, gcdW_setText, slack_setText]
    simp [Segment.withText]
  · rw [ContentState.normalizedLengthMin, ContentState.normalizedReferenceLength,
      ContentState.referenceLength, hr, gcdW_setText, slack_setText]
    simp [Segment.withText]

/-- With a fixed band, the classification is monotone in the
normalized length. -/
theorem verdictRank_classify_mono (bMin bMax x y : ℚ) (hxy : x ≤ y) :
    verdictRank (classify bMin bMax x) ≤ verdictRank (classify bMin bMax y) := by
  rw [classify, classify]
  by_cases hy : y > bMax
  · rw [if_pos hy]
    split_ifs <;> simp [verdictRank]
  · rw [if_neg hy]
    have hx : ¬ x > bMax := fun hc => hy (lt_of_lt_of_le hc hxy)
    rw [if_neg hx]
    by_cases hx2 : x < bMin
    · rw [if_pos hx2]
      split_ifs <;> simp [verdictRank]
    · rw [if_neg hx2]
      have hy2 : ¬ y < bMin := fun hc => hx2 (lt_of_le_of_lt hxy hc)
      rw [if_neg hy2]

/-- The reference segment's normalized length never exceeds its own
band maximum (non-clamping variant). -/
theorem ref_not_long (w g : ℕ) (σ : ℚ) (hσ : 0 ≤ σ) (n : ℕ) :
    ¬ ((n : ℚ) / (w : ℚ)
        > (max ((n : ℚ)) ((w : ℚ) / (g : ℚ)) / (w : ℚ)) * (1 + σ)) := by
  have h1 : (n : ℚ) / (w : ℚ) ≤ max ((n : ℚ)) ((w : ℚ) / (g : ℚ)) / (w : ℚ) :=
    div_le_div_of_nonneg_right (le_max_left _ _) (Nat.cast_nonneg _)
  have h0 : (0 : ℚ) ≤ max ((n : ℚ)) ((w : ℚ) / (g : ℚ)) / (w : ℚ) :=
    div_nonneg (le_trans (Nat.cast_nonneg n) (le_max_left _ _)) (Nat.cast_nonneg _)
  have h2 := le_mul_of_one_le_right h0 (by linarith : (1 : ℚ) ≤ 1 + σ)
  exact not_lt.mpr (le_trans h1 h2)

/-- Being inside/above the band minimum is upward closed in the
reference segment's own text length. -/
theorem ref_short_mono (w g : ℕ) (σ : ℚ) (hσ : 0 ≤ σ) (n n' : ℕ) (hn : n ≤ n')
    (h : ¬ ((n : ℚ) / (w : ℚ)
        < (max ((n : ℚ)) ((w : ℚ) / (g : ℚ)) / (w : ℚ)) * (1 - σ))) :
    ¬ ((n' : ℚ) / (w : ℚ)
        < (max ((n' : ℚ)) ((w : ℚ) / (g : ℚ)) / (w : ℚ)) * (1 - σ)) := by
  by_cases hσ1 : 1 - σ ≤ 0
  · intro hcon
    have hA : (0 : ℚ) ≤ max ((n' : ℚ)) ((w : ℚ) / (g : ℚ)) / (w : ℚ) :=
      div_nonneg (le_trans (Nat.cast_nonneg n') (le_max_left _ _))
        (Nat.cast_nonneg _)
    have hB := mul_nonpos_of_nonneg_of_nonpos hA hσ1
    have hC : ((n' : ℚ) / (w : ℚ)) < 0 := lt_of_lt_of_le hcon hB
    exact absurd hC
      (not_lt.mpr (div_nonneg (Nat.cast_nonneg _) (Nat.cast_nonneg _)))
  · push_neg at hσ1
    by_cases hng : ((w : ℚ) / (g : ℚ)) ≤ (n' : ℚ)
    · rw [max_eq_left hng]
      intro hcon
      have h0 : (0 : ℚ) ≤ (n' : ℚ) / (w : ℚ) :=
        div_nonneg (Nat.cast_nonneg _) (Nat.cast_nonneg _)
      have h2 := mul_le_of_le_one_right h0 (by linarith : (1 - σ) ≤ 1)
      linarith
    · push_neg at hng
      have hnn : (n : ℚ) ≤ (n' : ℚ) := by exact_mod_cast hn
      have hmax2 : max ((n' : ℚ)) ((w : ℚ) / (g : ℚ)) = (w : ℚ) / (g : ℚ) :=
        max_eq_right (le_of_lt hng)
      have hmax1 : max ((n : ℚ)) ((w : ℚ) / (g : ℚ)) = (w : ℚ) / (g : ℚ) :=
        max_eq_right (le_of_lt (lt_of_le_of_lt hnn hng))
      rw [hmax1] at h
      rw [hmax2]
      intro hcon
      apply h
      exact lt_of_le_of_lt (div_le_div_of_nonneg_right hnn (Nat.cast_nonneg _)) hcon

/-- C8: increasing one segment's text length while holding all other
segments' texts fixed can only move that segment's verdict forward
along too-short → alright → too-long, never backward (non-clamping
evaluator; both the reference segment itself and any other segment). -/
theorem c8_monotone (c : ContentState) (i : ℕ) (t t' : String)
    (hi : i < c.segments.length)
    (hw : ∀ s ∈ c.segments, 0 < s.weight)
    (hs : 0 ≤ c.slack)
    (hlen : t.length ≤ t'.length) :
    verdictRank (segVerdict (setText c i t) i)
      ≤ verdictRank (segVerdict (setText c i t') i) := by
  have hnl1 : ((setText c i t).segments.getD i (setText c i t).seg0).normalizedLength
      = (t.length : ℚ) / ((c.segments.getD i c.seg0).weight : ℚ) := by
    rw [getD_setText_self c i t hi]
    simp [Segment.withText, Segment.normalizedLength]
  have hnl2 : ((setText c i t').segments.getD i (setText c i t').seg0).normalizedLength
      = (t'.length : ℚ) / ((c.segments.getD i c.seg0).weight : ℚ) := by
    rw [getD_setText_self c i t' hi]
    simp [Segment.withText, Segment.normalizedLength]
  by_cases hr : i = c.refIdx
  · subst hr
    obtain ⟨hbx1, hbn1⟩ := bands_setText_ref c t
    obtain ⟨hbx2, hbn2⟩ := bands_setText_ref c t'
    have hrs : c.segments.getD c.refIdx c.seg0 = c.refSeg := rfl
    rw [segVerdict, segVerdict, hbx1, hbn1, hbx2, hbn2, hnl1, hnl2, hrs]
    have hσ : 0 ≤ c.slack / 100 := div_nonneg hs (by norm_num)
    have hA1 := ref_not_long c.refSeg.weight c.gcdW (c.slack / 100) hσ t.length
    have hA2 := ref_not_long c.refSeg.weight c.gcdW (c.slack / 100) hσ t'.length
    rw [classify, classify, if_neg hA1, if_neg hA2]
    by_cases hshort : (t.length : ℚ) / (c.refSeg.weight : ℚ)
        < (max ((t.length : ℚ)) ((c.refSeg.weight : ℚ) / (c.gcdW : ℚ))
            / (c.refSeg.weight : ℚ)) * (1 - c.slack / 100)
    · rw [if_pos hshort]
      exact Nat.zero_le _
    · rw [if_neg hshort]
      have hshort2 := ref_short_mono c.refSeg.weight c.gcdW (c.slack / 100) hσ
        t.length t'.length hlen hshort
      rw [if_neg hshort2]
  · obtain ⟨hbx1, hbn1⟩ := bands_setText_ne c i t hr
    obtain ⟨hbx2, hbn2⟩ := bands_setText_ne c i t' hr
    rw [segVerdict, segVerdict, hbx1, hbn1, hbx2, hbn2, hnl1, hnl2]
    apply verdictRank_classify_mono
    exact div_le_div_of_nonneg_right (by exact_mod_cast hlen) (Nat.cast_nonneg _)

/-- C10: in the non-clamping evaluator with positive weights, positive
gcd and non-negative slack, the reference segment itself is never
classified too-long. -/
theorem c10_reference_not_too_long (c : ContentState)
    (hw : ∀ s ∈ c.segments, 0 < s.weight) (hg : 0 < c.gcdW)
    (hs : 0 ≤ c.slack) :
    segVerdict c c.refIdx ≠ Verdict.tooLong := by
  have hrs : c.segments.getD c.refIdx c.seg0 = c.refSeg := rfl
  rw [segVerdict, hrs, classify]
  have hnl : c.refSeg.normalizedLength ≤ c.normalizedLengthMax := by
    have h1 : c.refSeg.normalizedLength ≤ c.normalizedReferenceLength := by
      rw [Segment.normalizedLength, ContentState.normalizedReferenceLength,
        ContentState.referenceLength]
      exact div_le_div_of_nonneg_right (le_max_left _ _) (Nat.cast_nonneg _)
    have h2 : c.normalizedReferenceLength ≤ c.normalizedLengthMax := by
      rw [ContentState.normalizedLengthMax]
      refine le_mul_of_one_le_right (normalizedReferenceLength_nonneg c) ?_
      have h3 : 0 ≤ c.slack / 100 := div_nonneg hs (by norm_num)
      linarith
    exact le_trans h1 h2
  rw [if_neg (not_lt.mpr hnl)]
  split_ifs <;> simp

/-- Witness for C5 on the spec scenario (`Body`, weight 3, is the
reference at index 1; `Intro` before it is strictly lighter). -/
theorem c5_reference_segment_witness :
    scenarioState.refIdx < scenarioState.segments.length ∧
    (scenarioState.segments.getD 0 scenarioState.seg0).weight
      ≤ scenarioState.refSeg.weight ∧
    (scenarioState.segments.getD 0 scenarioState.seg0).weight
      < scenarioState.refSeg.weight :=
  ⟨(c5_reference_segment scenarioState).1,
   (c5_reference_segment scenarioState).2.1 0 (by decide),
   (c5_reference_segment scenarioState).2.2 0 (by decide)⟩

/-- Witness for C8: growing `Intro`'s text from `"a"` to `"abc"` does
not move its verdict backward. -/
theorem c8_monotone_witness :
    verdictRank (segVerdict (setText scenarioState 0 "a") 0)
      ≤ verdictRank (segVerdict (setText scenarioState 0 "abc") 0) :=
  c8_monotone scenarioState 0 "a" "abc" (by decide) (by decide)
    (by norm_num [scenarioState]) (by decide)

/-- Witness for C10 on the spec scenario. -/
theorem c10_reference_not_too_long_witness :
    segVerdict scenarioState scenarioState.refIdx ≠ Verdict.tooLong :=
  c10_reference_not_too_long scenarioState (by decide)
    (by
      have hg : scenarioState.gcdW = 1 := by
        simp [ContentState.gcdW, scenarioState, introSegment, bodySegment,
          gcdStep, greatestCommonDivisor_eq_gcd]
      rw [hg]
      norm_num)
    (by norm_num [scenarioState])
